import Mathlib

/-!
Verification of the shorthand-notation core of `pSBOLv-cli.py`.

The development shallowly embeds the Python source: Python runtime values
are the inductive type `Val` (numbers are modelled as exact rationals),
Python exceptions are the type `Err`, fallible code returns `Except Err _`.
Library behaviour the source relies on (string `split`, `int()` parsing,
list indexing with negative wrap-around, insertion-ordered dicts) is
modelled by dedicated executable functions below, each documented with the
Python behaviour it captures.
-/

/-- Python exceptions raised (directly or via the standard library) by the
CLI tool. `exn msg` is a plain `Exception(msg)` raised by the source. -/
inductive Err where
  | indexError : Err
  | valueError : Err
  | keyError : Err
  | typeError : Err
  | zeroDivisionError : Err
  | syntaxError : Err
  | nonRationalPower : Err
  | exn : String → Err
  deriving DecidableEq

/-- A Python runtime value as used by this program: strings, numbers
(Python's ints and floats are both modelled as exact rationals), `None`,
tuples, lists, and string-keyed insertion-ordered dicts (every dict in the
source has string keys). -/
inductive Val where
  | str : String → Val
  | num : ℚ → Val
  | nil : Val
  | tup : List Val → Val
  | lst : List Val → Val
  | dct : List (String × Val) → Val

/-- Whitespace stripped by Python `int()` around the digits. -/
def pySpace (c : Char) : Bool :=
  c = ' ' || c = '\t' || c = '\n' || c = '\r'

/-- Decimal digit test. -/
def isDig (c : Char) : Bool :=
  '0' ≤ c && c ≤ '9'

/-- Numeric value of a decimal digit character. -/
def digitVal (c : Char) : Nat := c.toNat - '0'.toNat

/-- Value of a list of decimal digit characters. -/
def natOfDigits (ds : List Char) : Nat :=
  ds.foldl (fun acc c => 10 * acc + digitVal c) 0

/-- Python `int(s)`: strips surrounding whitespace, allows one optional
sign, then requires a nonempty run of decimal digits. (Python additionally
accepts underscores between digits, which no input of this tool uses.)
Returns `none` where Python raises `ValueError`. -/
def pyInt (s : String) : Option Int :=
  match ((s.data.dropWhile pySpace).reverse.dropWhile pySpace).reverse with
  | [] => none
  | c :: ds =>
    if c = '-' then
      if ds ≠ [] ∧ ds.all isDig then some (-(natOfDigits ds : Int)) else none
    else if c = '+' then
      if ds ≠ [] ∧ ds.all isDig then some (natOfDigits ds : Int) else none
    else
      if (c :: ds).all isDig then some (natOfDigits (c :: ds) : Int) else none

/-- Python list subscript `xs[i]`: a negative index counts from the end of
the list; an index outside `[-len, len)` raises `IndexError`. -/
def pyIndex {α : Type} (xs : List α) (i : Int) : Except Err α :=
  if 0 ≤ i then
    match xs.get? i.toNat with
    | some x => .ok x
    | none => .error .indexError
  else if (-i).toNat ≤ xs.length then
    match xs.get? (xs.length - (-i).toNat) with
    | some x => .ok x
    | none => .error .indexError
  else .error .indexError

/-- Python list subscript with a nonnegative literal index, as in
`values[0]`. -/
def pyNth {α : Type} (xs : List α) (n : Nat) : Except Err α :=
  match xs.get? n with
  | some x => .ok x
  | none => .error .indexError

/-- Python `s.split(sep)` for a one-character separator: splits at every
occurrence and keeps empty pieces, so the result is always nonempty. -/
def splitOnCh (sep : Char) : List Char → List (List Char)
  | [] => [[]]
  | c :: cs =>
    let r := splitOnCh sep cs
    if c = sep then [] :: r else (c :: r.headD []) :: r.tail

/-- Python `s.split('//')`: splits at every leftmost non-overlapping
occurrence of the two-character separator. -/
def splitDSlash : List Char → List (List Char)
  | '/' :: '/' :: cs => [] :: splitDSlash cs
  | c :: cs =>
    let r := splitDSlash cs
    (c :: r.headD []) :: r.tail
  | [] => [[]]

/-- Does `needle` occur at the head of `hay`? -/
def headMatch : List Char → List Char → Bool
  | [], _ => true
  | _ :: _, [] => false
  | n :: ns, h :: hs => n == h && headMatch ns hs

/-- Occurrence of `needle` anywhere in `hay`. -/
def hasSub (needle : List Char) : List Char → Bool
  | [] => needle.isEmpty
  | h :: hs => headMatch needle (h :: hs) || hasSub needle hs

/-- Python substring membership `needle in hay`. -/
def strContains (hay needle : String) : Bool :=
  hasSub needle.data hay.data

/-- Python dict lookup over an insertion-ordered association list with
string keys. -/
def dictGet {α : Type} (d : List (String × α)) (k : String) : Option α :=
  match d with
  | [] => none
  | (k', v) :: rest => if k' = k then some v else dictGet rest k

/-- Python dict assignment `d[k] = v`: overwrites the value of an existing
key in place, otherwise appends the new key at the end. -/
def dictPut {α : Type} (d : List (String × α)) (k : String) (v : α) : List (String × α) :=
  match d with
  | [] => [(k, v)]
  | (k', v') :: rest => if k' = k then (k, v) :: rest else (k', v') :: dictPut rest k v

/-- One sub-path record of a glyph definition, as stored in the parasbolv
`glyphs_library`: the fields `path['class']`, `path['id']` and
`path['style']` read by `set_style_color`. -/
structure PathInfo where
  cls : String
  id : String
  style : List (String × Val)

/-- One glyph definition: the `'paths'` collection read by
`set_style_color`. -/
structure GlyphInfo where
  paths : List PathInfo

/-- The renderer's `glyphs_library`: an externally supplied
insertion-ordered dict from glyph name to glyph definition. -/
abbrev Catalog := List (String × GlyphInfo)

/-- Embedding of `find_glyph` (pSBOLv-cli.py lines 90-110). `value[0]` on
the empty string raises `IndexError`; `value.replace('<', '')` removes
every `'<'` and runs only in the leading-`'<'` branch; `int(value)` raises
`ValueError` on a malformed number; `glyphs[index]` follows Python list
indexing. -/
def find_glyph (value : String) (renderer : Catalog) : Except Err (String × String) :=
  match value.data with
  | [] => .error .indexError
  | c :: cs =>
    let p : String × String :=
      if c = '<' then ("reverse", String.mk ((c :: cs).filter (fun x => x ≠ '<')))
      else ("forward", value)
    let glyphs := renderer.map Prod.fst
    match pyInt p.2 with
    | none => .error .valueError
    | some index =>
      match pyIndex glyphs index with
      | .ok glyph => .ok (glyph, p.1)
      | .error e => .error e

/-- The preset palette `colordict` (lines 125-138), channels on the 0-255
scale. -/
def colordict : List (String × (ℚ × ℚ × ℚ)) :=
  [("1", (51, 204, 255)),
   ("2", (0, 0, 153)),
   ("3", (0, 204, 102)),
   ("4", (0, 102, 0)),
   ("5", (255, 102, 102)),
   ("6", (255, 0, 0)),
   ("7", (255, 153, 102)),
   ("8", (255, 153, 102)),
   ("9", (255, 153, 255)),
   ("10", (204, 0, 204)),
   ("11", (255, 255, 102)),
   ("12", (255, 204, 0)),
   ("13", (140, 140, 140)),
   ("14", (0, 0, 0))]

/-- Line 122 of the source tests `value is tuple`: identity of `value` with
the built-in type object `tuple` itself. No runtime color value is that
type object, so the test is false for every value this embedding can
receive. -/
def pyIsTheTypeTuple (_ : Val) : Bool := false

/-- Embedding of `find_color` (lines 113-141). When the `value is tuple`
branch is not taken, `colordict[value]` looks the value up as a dict key:
a string key may hit the palette, any other hashable value (such as an
actual tuple) raises `KeyError`, and an unhashable value (a list) raises
`TypeError`. -/
def find_color (value : Val) : Except Err Val :=
  if pyIsTheTypeTuple value then .ok value
  else
    match value with
    | .str s =>
      match dictGet colordict s with
      | some (r, g, b) => .ok (.tup [.num (r / 255), .num (g / 255), .num (b / 255)])
      | none => .error .keyError
    | .lst _ => .error .typeError
    | _ => .error .keyError

/-- Loop body of `parse_string` (lines 79-86): parse one comma-separated
part segment. `values[0]` is read first (inside `find_glyph`'s argument),
then `values[1]`, and `values[2]` becomes the label only when the segment
has exactly three fields. -/
def parse_partition (partition : String) (renderer : Catalog) : Except Err Val := do
  let values := (splitOnCh ' ' partition.data).map String.mk
  let v0 ← pyNth values 0
  let go ← find_glyph v0 renderer
  let v1 ← pyNth values 1
  let color ← find_color (.str v1)
  let label ← if values.length = 3 then (fun v => Val.str v) <$> pyNth values 2
              else pure Val.nil
  pure (Val.lst [.str go.1, .str go.2, color, label])

/-- Embedding of `parse_string` (lines 68-87): split on `','` and parse
each segment in order, aborting at the first error. -/
def parse_string (string : String) (renderer : Catalog) : Except Err (List Val) :=
  ((splitOnCh ',' string.data).map String.mk).mapM (fun p => parse_partition p renderer)

/-- One iteration of the inner loop of `set_style_color` (lines 165-167):
`if 'edge' in key: color_style[key] = color`. -/
def edgeStep (color : Val) (acc : List (String × Val)) (kv : String × Val) :
    List (String × Val) :=
  if strContains kv.1 "edge" then dictPut acc kv.1 color else acc

/-- Inner loop of `set_style_color` (lines 164-167): collect every style
property whose name contains `edge`, mapped to the new color. -/
def color_style_of (style : List (String × Val)) (color : Val) : List (String × Val) :=
  style.foldl (edgeStep color) []

/-- Condition of line 162: a sub-path is recolored when its class is
neither `baseline` nor `bounding-box` and its id does not contain
`background`. -/
def recolorable (p : PathInfo) : Bool :=
  !(p.cls == "baseline" || p.cls == "bounding-box") && !(strContains p.id "background")

/-- One iteration of the outer loop of `set_style_color` (lines 161-168):
fill `style_dict` keyed by `path['id']` for every recolorable sub-path. -/
def styleStep (color : Val) (style_dict : List (String × Val)) (path : PathInfo) :
    List (String × Val) :=
  if recolorable path then
    dictPut style_dict path.id (.dct (color_style_of path.style color))
  else style_dict

/-- Embedding of `set_style_color` (lines 144-169). `library[glyph]` with
an unknown string key raises `KeyError`; the loop fills `style_dict` keyed
by `path['id']` for every recolorable sub-path. -/
def set_style_color (glyph : Val) (color : Val) (renderer : Catalog) :
    Except Err (List (String × Val)) :=
  match glyph with
  | .str g =>
    match dictGet renderer g with
    | some glyphinfo => .ok (glyphinfo.paths.foldl (styleStep color) [])
    | none => .error .keyError
  | _ => .error .keyError

/-- Python subscript `v[i]` on a program value, used for `part[0]` ...
`part[3]` in `format_parts`: defined on lists and tuples. -/
def pyGet (v : Val) (i : Int) : Except Err Val :=
  match v with
  | .lst xs => pyIndex xs i
  | .tup xs => pyIndex xs i
  | _ => .error .typeError

/-- Loop body of `format_parts` (lines 185-193): unpack the four part
fields, build the style override dict, and attach `label_parameters` only
when the label is not `None`. -/
def format_part (part : Val) (renderer : Catalog) : Except Err Val := do
  let g ← pyGet part 0
  let o ← pyGet part 1
  let c ← pyGet part 2
  let l ← pyGet part 3
  let style_dict ← set_style_color g c renderer
  match l with
  | .nil => pure (Val.lst [g, .dct [("orientation", o)], .dct style_dict])
  | _ => pure (Val.lst [g, .dct [("orientation", o),
                                 ("label_parameters", .dct [("text", l)])], .dct style_dict])

/-- Embedding of `format_parts` (lines 172-194). -/
def format_parts (part_list : List Val) (renderer : Catalog) : Except Err (List Val) :=
  part_list.mapM (fun part => format_part part renderer)

/-- Tokens of the arithmetic expressions accepted by `safe_eval`'s
character whitelist. -/
inductive Tok where
  | num : ℚ → Tok
  | plus : Tok
  | minus : Tok
  | star : Tok
  | slash : Tok
  | dstar : Tok
  | dslash : Tok
  | lpar : Tok
  | rpar : Tok
  deriving DecidableEq

/-- Lex one numeric literal (`123`, `1.5`, `.5`, `5.`): returns its value
and the rest of the input, or `none` when no digit is present at all. -/
def lexNum (cs : List Char) : Option (ℚ × List Char) :=
  let ip := cs.takeWhile isDig
  let rest := cs.drop ip.length
  match rest with
  | '.' :: rest2 =>
    let fp := rest2.takeWhile isDig
    if ip.isEmpty && fp.isEmpty then none
    else some ((natOfDigits ip : ℚ) + (natOfDigits fp : ℚ) / 10 ^ fp.length,
               rest2.drop fp.length)
  | _ =>
    if ip.isEmpty then none
    else some ((natOfDigits ip : ℚ), rest)

/-- Tokenizer for the whitelisted character set, following Python's lexer
on it: spaces are skipped, `**` and `//` are two-character operators, and
a character that starts no token is a syntax error. Fuel bounds the
recursion; `tokenize (cs.length + 1) cs` never exhausts it, because every
step consumes at least one character. -/
def tokenize (fuel : Nat) (cs : List Char) : Except Err (List Tok) :=
  match fuel with
  | 0 => .error .syntaxError
  | fuel + 1 =>
    match cs with
    | [] => .ok []
    | ' ' :: rest => tokenize fuel rest
    | '+' :: rest => (fun ts => Tok.plus :: ts) <$> tokenize fuel rest
    | '-' :: rest => (fun ts => Tok.minus :: ts) <$> tokenize fuel rest
    | '*' :: '*' :: rest => (fun ts => Tok.dstar :: ts) <$> tokenize fuel rest
    | '*' :: rest => (fun ts => Tok.star :: ts) <$> tokenize fuel rest
    | '/' :: '/' :: rest => (fun ts => Tok.dslash :: ts) <$> tokenize fuel rest
    | '/' :: rest => (fun ts => Tok.slash :: ts) <$> tokenize fuel rest
    | '(' :: rest => (fun ts => Tok.lpar :: ts) <$> tokenize fuel rest
    | ')' :: rest => (fun ts => Tok.rpar :: ts) <$> tokenize fuel rest
    | c :: rest =>
      if isDig c || c = '.' then
        match lexNum (c :: rest) with
        | some (q, rest2) => (fun ts => Tok.num q :: ts) <$> tokenize fuel rest2
        | none => .error .syntaxError
      else .error .syntaxError

/-- Python true division `a / b`: raises `ZeroDivisionError` on a zero
divisor. -/
def pyDiv (a b : ℚ) : Except Err ℚ :=
  if b = 0 then .error .zeroDivisionError else .ok (a / b)

/-- Python floor division `a // b`. -/
def pyFloorDiv (a b : ℚ) : Except Err ℚ :=
  if b = 0 then .error .zeroDivisionError else .ok ((a / b).floor : ℚ)

/-- Python power `a ** b` for the values reachable here. A fractional
exponent yields an irrational float in general, which the exact rational
value model cannot represent; it is mapped to a dedicated error. -/
def pyPow (a b : ℚ) : Except Err ℚ :=
  if b.den = 1 then
    if 0 ≤ b.num then .ok (a ^ b.num.toNat)
    else if a = 0 then .error .zeroDivisionError
    else .ok (a ^ b.num)
  else .error .nonRationalPower

mutual

/-- Additive level: `term (('+'|'-') term)*`. -/
def parseE (fuel : Nat) (ts : List Tok) : Except Err (ℚ × List Tok) :=
  match fuel with
  | 0 => .error .syntaxError
  | fuel + 1 => do
    let r ← parseT fuel ts
    parseEL fuel r.1 r.2

/-- Loop of the additive level. -/
def parseEL (fuel : Nat) (acc : ℚ) (ts : List Tok) : Except Err (ℚ × List Tok) :=
  match fuel with
  | 0 => .error .syntaxError
  | fuel + 1 =>
    match ts with
    | Tok.plus :: rest => do
      let r ← parseT fuel rest
      parseEL fuel (acc + r.1) r.2
    | Tok.minus :: rest => do
      let r ← parseT fuel rest
      parseEL fuel (acc - r.1) r.2
    | _ => .ok (acc, ts)

/-- Multiplicative level: `factor (('*'|'/'|'//') factor)*`. -/
def parseT (fuel : Nat) (ts : List Tok) : Except Err (ℚ × List Tok) :=
  match fuel with
  | 0 => .error .syntaxError
  | fuel + 1 => do
    let r ← parseF fuel ts
    parseTL fuel r.1 r.2

/-- Loop of the multiplicative level. -/
def parseTL (fuel : Nat) (acc : ℚ) (ts : List Tok) : Except Err (ℚ × List Tok) :=
  match fuel with
  | 0 => .error .syntaxError
  | fuel + 1 =>
    match ts with
    | Tok.star :: rest => do
      let r ← parseF fuel rest
      parseTL fuel (acc * r.1) r.2
    | Tok.slash :: rest => do
      let r ← parseF fuel rest
      let q ← pyDiv acc r.1
      parseTL fuel q r.2
    | Tok.dslash :: rest => do
      let r ← parseF fuel rest
      let q ← pyFloorDiv acc r.1
      parseTL fuel q r.2
    | _ => .ok (acc, ts)

/-- Unary level: `('+'|'-') factor | power`; in Python unary minus binds
looser than `**`. -/
def parseF (fuel : Nat) (ts : List Tok) : Except Err (ℚ × List Tok) :=
  match fuel with
  | 0 => .error .syntaxError
  | fuel + 1 =>
    match ts with
    | Tok.plus :: rest => parseF fuel rest
    | Tok.minus :: rest => do
      let r ← parseF fuel rest
      .ok (-r.1, r.2)
    | _ => parseP fuel ts

/-- Power level: `atom ['**' factor]`, right associative, exponent may be
signed. -/
def parseP (fuel : Nat) (ts : List Tok) : Except Err (ℚ × List Tok) :=
  match fuel with
  | 0 => .error .syntaxError
  | fuel + 1 => do
    let b ← parseA fuel ts
    match b.2 with
    | Tok.dstar :: rest => do
      let e ← parseF fuel rest
      let q ← pyPow b.1 e.1
      .ok (q, e.2)
    | _ => .ok b

/-- Atoms: numeric literals and parenthesised expressions. -/
def parseA (fuel : Nat) (ts : List Tok) : Except Err (ℚ × List Tok) :=
  match fuel with
  | 0 => .error .syntaxError
  | fuel + 1 =>
    match ts with
    | Tok.num q :: rest => .ok (q, rest)
    | Tok.lpar :: rest => do
      let r ← parseE fuel rest
      match r.2 with
      | Tok.rpar :: rest2 => .ok (r.1, rest2)
      | _ => .error .syntaxError
    | _ => .error .syntaxError

end

/-- Embedding of Python `eval` on the expressions that pass `safe_eval`'s
whitelist: a standard arithmetic evaluator with Python's precedence over
exact rationals. The parsing fuel is generous; each grammar level consumes
fuel only while tokens remain, so `5 * length + 10` can never run out. -/
def pyEvalArith (cs : List Char) : Except Err ℚ := do
  let ts ← tokenize (cs.length + 1) cs
  let r ← parseE (5 * ts.length + 10) ts
  match r.2 with
  | [] => .ok r.1
  | _ => .error .syntaxError

/-- The character whitelist of `safe_eval` (line 209). -/
def allowed_chars : String := "0123456789+-*(). /"

/-- Embedding of `safe_eval` (lines 197-213): the loop over the characters
raises on the first character outside the whitelist (observably: it raises
exactly when some character is outside it), and only then is the string
evaluated. -/
def safe_eval (expression : String) : Except Err ℚ :=
  if expression.data.all (fun c => allowed_chars.data.contains c) then
    pyEvalArith expression.data
  else
    .error (.exn ("Unsafe eval - allowed characters: " ++ allowed_chars))

/-- The error message of `find_interaction_type` (line 270). -/
def interaction_err_msg : String :=
  "Invalid interaction type. Valid values: \"in\", \"co\", \"de\", \"pr\", \"st\"."

/-- Embedding of `find_interaction_type` (lines 249-271). -/
def find_interaction_type (value : String) : Except Err String :=
  if value = "in" then .ok "inhibition"
  else if value = "co" then .ok "control"
  else if value = "de" then .ok "degradation"
  else if value = "pr" then .ok "process"
  else if value = "st" then .ok "stimulation"
  else .error (.exn interaction_err_msg)

/-- Body shared by both branches of `process_interactions` (lines 233-238
and 240-245): format one comma-separated interaction segment against the
given part list. The part list is indexed only after the kind and the
color resolve. -/
def process_one (interaction : String) (part_list : List Val) : Except Err Val :=
  pyNth ((splitOnCh ',' interaction.data).map String.mk) 0 >>= fun e0 =>
  (match pyInt e0 with
   | some i => Except.ok i
   | none => Except.error Err.valueError) >>= fun starting_index =>
  pyNth ((splitOnCh ',' interaction.data).map String.mk) 1 >>= fun e1 =>
  (match pyInt e1 with
   | some i => Except.ok i
   | none => Except.error Err.valueError) >>= fun ending_index =>
  pyNth ((splitOnCh ',' interaction.data).map String.mk) 2 >>= fun e2 =>
  find_interaction_type e2 >>= fun interaction_type =>
  pyNth ((splitOnCh ',' interaction.data).map String.mk) 3 >>= fun e3 =>
  find_color (.str e3) >>= fun color =>
  pyIndex part_list starting_index >>= fun sp =>
  pyIndex part_list ending_index >>= fun ep =>
  pure (Val.lst [sp, ep, .str interaction_type, .dct [("color", color)]])

/-- Embedding of `process_interactions` (lines 216-246): with `'//'`
present the string is split into segments processed in order, otherwise
the whole string is one segment. -/
def process_interactions (interaction : String) (part_list : List Val) :
    Except Err (List Val) :=
  if strContains interaction "//" then
    ((splitDSlash interaction.data).map String.mk).mapM (fun seg => process_one seg part_list)
  else
    (fun v => [v]) <$> process_one interaction part_list

/-- Embedding of the data pipeline of `render_input` (lines 52-62): parse
the construct string, reformat the parts, evaluate the optional rotation
(an empty rotation string bypasses `safe_eval` and yields `0.0`), and
process the optional interaction string against the reformatted part list.
Drawing and the untouched gap-size pass-through are outside the embedded
core. -/
def render_pipeline (string rotation interaction : String) (renderer : Catalog) :
    Except Err (List Val × ℚ × Option (List Val)) :=
  parse_string string renderer >>= fun parts =>
  format_parts parts renderer >>= fun part_list =>
  (if rotation ≠ "" then safe_eval rotation else pure (0 : ℚ)) >>= fun rot =>
  (if interaction ≠ "" then
     (fun l => some l) <$> process_interactions interaction part_list
   else pure none) >>= fun ints =>
  pure (part_list, rot, ints)

/-- A small concrete glyph style used by the test catalog. -/
def bodyStyle : List (String × Val) :=
  [("edgecolor", .tup [.num 0, .num 0, .num 0]),
   ("facecolor", .tup [.num 1, .num 1, .num 1]),
   ("linewidth", .num 1)]

/-- A two-glyph catalog fixture in the shape parasbolv supplies: each glyph
has drawable sub-paths plus structural baseline / bounding-box /
background sub-paths. -/
def testCatalog : Catalog :=
  [("promoter", ⟨[⟨"unspecified", "promoter-body", bodyStyle⟩,
                  ⟨"unspecified", "promoter-background", bodyStyle⟩,
                  ⟨"bounding-box", "promoter-bbox", bodyStyle⟩,
                  ⟨"baseline", "promoter-base", bodyStyle⟩]⟩),
   ("cds", ⟨[⟨"unspecified", "cds-body", bodyStyle⟩]⟩)]

example : find_color (.str "1") = .ok (.tup [.num (51/255), .num (204/255), .num (255/255)]) := rfl
example : find_color (.tup [.num 1, .num 0, .num 0]) = .error .keyError := rfl
example : pyInt "-1" = some (-1) := rfl
example : pyInt "2<5" = none := rfl
example : pyInt "25" = some 25 := rfl
example : splitOnCh ' ' "0 1 lab".data = [['0'], ['1'], ['l','a','b']] := rfl
example : splitDSlash "a//b//".data = [['a'], ['b'], []] := rfl
example : strContains "0,1,in,5//1,3" "//" = true := rfl
example : strContains "0,1,in,5" "//" = false := rfl

/-- A 26-glyph catalog fixture, large enough for part index 25. -/
def bigCatalog : Catalog :=
  (List.range 26).map (fun n => ("g" ++ toString n, ⟨[]⟩))

/-!
Helper lemmas about the embedded Python primitives.
-/

theorem except_bind_ok {ε α β : Type} {x : Except ε α} {f : α → Except ε β} {b : β}
    (h : x >>= f = Except.ok b) : ∃ a, x = Except.ok a ∧ f a = Except.ok b := by
  cases x with
  | error e =>
    simp only [Bind.bind, Except.bind] at h
    exact Except.noConfusion h
  | ok a =>
    refine ⟨a, rfl, ?_⟩
    simpa only [Bind.bind, Except.bind] using h

theorem error_bind {ε α β : Type} (e : ε) (f : α → Except ε β) :
    (Except.error e : Except ε α) >>= f = Except.error e := rfl

theorem ok_bind {ε α β : Type} (a : α) (f : α → Except ε β) :
    (Except.ok a : Except ε α) >>= f = f a := rfl

theorem pyIndex_ok_nonneg {α : Type} (xs : List α) (i : Int) (h0 : 0 ≤ i)
    (h : i < (xs.length : Int)) :
    ∃ x, pyIndex xs i = .ok x ∧ xs.get? i.toNat = some x := by
  cases hg : xs.get? i.toNat with
  | none =>
    have := List.get?_eq_none.mp hg
    omega
  | some x =>
    refine ⟨x, ?_, rfl⟩
    unfold pyIndex
    rw [if_pos h0, hg]

theorem pyIndex_ok_neg {α : Type} (xs : List α) (i : Int) (hneg : i < 0)
    (h : -(xs.length : Int) ≤ i) :
    ∃ x, pyIndex xs i = .ok x ∧ xs.get? (xs.length - (-i).toNat) = some x := by
  have h1 : ¬ (0 ≤ i) := by omega
  have h2 : (-i).toNat ≤ xs.length := by omega
  have h3 : xs.length - (-i).toNat < xs.length := by omega
  cases hg : xs.get? (xs.length - (-i).toNat) with
  | none =>
    have := List.get?_eq_none.mp hg
    omega
  | some x =>
    refine ⟨x, ?_, rfl⟩
    unfold pyIndex
    rw [if_neg h1, if_pos h2, hg]

theorem pyIndex_err_ge {α : Type} (xs : List α) (i : Int) (h : (xs.length : Int) ≤ i) :
    pyIndex xs i = .error .indexError := by
  have h0 : 0 ≤ i := by omega
  have hg : xs.get? i.toNat = none := List.get?_eq_none.mpr (by omega)
  unfold pyIndex
  rw [if_pos h0, hg]

theorem pyIndex_err_ltneg {α : Type} (xs : List α) (i : Int) (h : i < -(xs.length : Int)) :
    pyIndex xs i = .error .indexError := by
  have h0 : ¬ (0 ≤ i) := by omega
  have h2 : ¬ ((-i).toNat ≤ xs.length) := by omega
  unfold pyIndex
  rw [if_neg h0, if_neg h2]

theorem mem_dropWhile_of_not {α : Type} (p : α → Bool) (l : List α) (a : α)
    (ha : a ∈ l) (hpa : p a = false) : a ∈ l.dropWhile p := by
  induction l with
  | nil => cases ha
  | cons h t ih =>
    cases hp : p h with
    | true =>
      rcases List.mem_cons.mp ha with rfl | hat
      · rw [hp] at hpa; cases hpa
      · simpa [List.dropWhile_cons, hp] using ih hat
    | false => simpa [List.dropWhile_cons, hp] using ha

theorem pyInt_none_of_bad (s : String) (c : Char) (hc : c ∈ s.data)
    (h1 : isDig c = false) (h2 : c ≠ '-') (h3 : c ≠ '+') (h4 : pySpace c = false) :
    pyInt s = none := by
  have hct : c ∈ ((s.data.dropWhile pySpace).reverse.dropWhile pySpace).reverse := by
    refine List.mem_reverse.mpr (mem_dropWhile_of_not _ _ _ ?_ h4)
    exact List.mem_reverse.mpr (mem_dropWhile_of_not _ _ _ hc h4)
  have hdsall : ∀ l : List Char, c ∈ l → l.all isDig = false := by
    intro l hm
    simp only [List.all_eq_false]
    exact ⟨c, hm, by simp [h1]⟩
  unfold pyInt
  cases hl : ((s.data.dropWhile pySpace).reverse.dropWhile pySpace).reverse with
  | nil =>
    rw [hl] at hct
  | cons hd ds =>
    rw [hl] at hct
    by_cases hm : hd = '-'
    · have hcds : c ∈ ds := by
        rcases List.mem_cons.mp hct with hceq | h'
        · exact absurd (hceq.trans hm) h2
        · exact h'
      simp [hm, hdsall ds hcds]
    · by_cases hp : hd = '+'
      · have hcds : c ∈ ds := by
          rcases List.mem_cons.mp hct with hceq | h'
          · exact absurd (hceq.trans hp) h3
          · exact h'
        simp [hm, hp, hdsall ds hcds]
      · simp [hm, hp, hdsall (hd :: ds) hct]

theorem four_of_length {α : Type} : ∀ (l : List α), 4 ≤ l.length →
    ∃ a b c d tl, l = a :: b :: c :: d :: tl
  | a :: b :: c :: d :: tl, _ => ⟨a, b, c, d, tl, rfl⟩
  | [], h => by simp at h
  | [_], h => by simp at h
  | [_, _], h => by simp at h
  | [_, _, _], h => by simp at h

theorem dictGet_mem {α : Type} (d : List (String × α)) (k : String) (v : α)
    (h : dictGet d k = some v) : k ∈ d.map Prod.fst := by
  induction d with
  | nil => simp [dictGet] at h
  | cons kv rest ih =>
    by_cases hk : kv.1 = k
    · simp [hk]
    · right
      refine ih ?_
      rcases kv with ⟨a, b⟩
      simpa [dictGet, hk] using h

theorem dictGet_dictPut {α : Type} (d : List (String × α)) (k : String) (v : α)
    (k' : String) :
    dictGet (dictPut d k v) k' = if k = k' then some v else dictGet d k' := by
  induction d with
  | nil => simp [dictPut, dictGet]
  | cons kv rest ih =>
    rcases kv with ⟨a, b⟩
    by_cases hak : a = k
    · subst hak
      by_cases hk : a = k' <;> simp [dictPut, dictGet, hk]
    · by_cases hk : a = k'
      · subst hk
        have : ¬ (k = a) := fun h => hak h.symm
        simp [dictPut, hak, dictGet, this]
      · simp [dictPut, hak, dictGet, hk, ih]

theorem styleFold_some (color : Val) :
    ∀ (paths : List PathInfo) (acc : List (String × Val)) (k : String) (v : Val),
    dictGet (paths.foldl (styleStep color) acc) k = some v →
    (∃ p ∈ paths, recolorable p = true ∧ p.id = k ∧
       v = .dct (color_style_of p.style color)) ∨ dictGet acc k = some v := by
  intro paths
  induction paths with
  | nil => exact fun acc k v h => Or.inr h
  | cons p ps ih =>
    intro acc k v h
    rw [List.foldl_cons] at h
    rcases ih _ _ _ h with ⟨q, hq, hrec, hid, hv⟩ | hacc
    · exact Or.inl ⟨q, List.mem_cons_of_mem _ hq, hrec, hid, hv⟩
    · unfold styleStep at hacc
      by_cases hrec : recolorable p = true
      · rw [if_pos hrec, dictGet_dictPut] at hacc
        by_cases hid : p.id = k
        · rw [if_pos hid] at hacc
          obtain rfl : Val.dct (color_style_of p.style color) = v := by
            simpa using hacc
          exact Or.inl ⟨p, List.mem_cons_self _ _, hrec, hid, rfl⟩
        · rw [if_neg hid] at hacc
          exact Or.inr hacc
      · rw [if_neg hrec] at hacc
        exact Or.inr hacc

theorem styleFold_isSome (color : Val) :
    ∀ (paths : List PathInfo) (acc : List (String × Val)) (k : String),
    ((∃ p ∈ paths, recolorable p = true ∧ p.id = k) ∨ (dictGet acc k).isSome = true) →
    (dictGet (paths.foldl (styleStep color) acc) k).isSome = true := by
  intro paths
  induction paths with
  | nil =>
    intro acc k h
    rcases h with ⟨p, hp, _⟩ | h
    · cases hp
    · exact h
  | cons p ps ih =>
    intro acc k h
    rw [List.foldl_cons]
    apply ih
    rcases h with ⟨q, hq, hrec, hid⟩ | hacc
    · rcases List.mem_cons.mp hq with rfl | hq'
      · right
        unfold styleStep
        rw [if_pos hrec, dictGet_dictPut, if_pos hid]
        rfl
      · exact Or.inl ⟨q, hq', hrec, hid⟩
    · right
      unfold styleStep
      by_cases hrec : recolorable p = true
      · rw [if_pos hrec, dictGet_dictPut]
        by_cases hid : p.id = k
        · rw [if_pos hid]; rfl
        · rw [if_neg hid]; exact hacc
      · rw [if_neg hrec]; exact hacc

theorem edgeFold_get (color : Val) :
    ∀ (style : List (String × Val)) (acc : List (String × Val)) (key : String),
    dictGet (style.foldl (edgeStep color) acc) key =
      if key ∈ (style.filter (fun kv => strContains kv.1 "edge")).map Prod.fst
      then some color else dictGet acc key := by
  intro style
  induction style with
  | nil => intro acc key; simp
  | cons kv rest ih =>
    intro acc key
    rw [List.foldl_cons, ih]
    by_cases se : strContains kv.1 "edge" = true
    · by_cases hmemr : key ∈ (rest.filter (fun x => strContains x.1 "edge")).map Prod.fst
      · rw [if_pos hmemr, if_pos]
        simp [List.filter_cons, se, hmemr]
      · rw [if_neg hmemr]
        unfold edgeStep
        rw [if_pos se, dictGet_dictPut]
        by_cases hk : kv.1 = key
        · rw [if_pos hk, if_pos]
          rw [List.filter_cons, if_pos se, List.map_cons]
          exact List.mem_cons.mpr (Or.inl hk.symm)
        · rw [if_neg hk, if_neg]
          simp only [List.filter_cons, se, if_true, List.map_cons, List.mem_cons]
          push_neg
          exact ⟨fun h => hk h.symm, hmemr⟩
    · have : (edgeStep color acc kv) = acc := by
        unfold edgeStep
        rw [if_neg se]
      rw [this]
      have hfil : ((kv :: rest).filter (fun x => strContains x.1 "edge")) =
          rest.filter (fun x => strContains x.1 "edge") := by
        simp [List.filter_cons, se]
      rw [hfil]


section claims
attribute [local semireducible] Rat.add Rat.mul Rat.inv Rat.sub

/-- C3 (code bug in the source): contrary to the claim and to
`find_color`'s own docstring, an RGB triple is never passed through
unchanged. Line 122 tests `value is tuple`, identity with the type object
itself, which is false for an actual triple, so the triple falls into the
`colordict` lookup and raises `KeyError`. Evaluated here at the failing
input `(1.0, 0.0, 0.0)`. -/
theorem c3_triple_input_raises_keyerror :
    find_color (.tup [.num 1, .num 0, .num 0]) = .error .keyError ∧
    pyIsTheTypeTuple (.tup [.num 1, .num 0, .num 0]) = false :=
  ⟨rfl, rfl⟩

/-- C4 counterexample: with the two-glyph test catalog, the negative part
index `-1` resolves successfully to the last glyph instead of failing with
an index error, refuting "a negative part index never successfully
resolves to a glyph". -/
theorem c4_cex_negative_index_resolves :
    find_glyph "-1" testCatalog = .ok ("cds", "forward") := rfl

/-- C4 (amended): for a part index field that parses as the integer `i`
(no orientation marker), glyph resolution fails with an index error
exactly when `i` is outside Python's accepted range `[-size, size)`: an
index `≥ size` fails as claimed, but a negative index in `[-size, -1]`
resolves to the glyph at position `size + i` of the catalog's key order. -/
theorem c4_find_glyph_bounds :
    ∀ (s : String) (renderer : Catalog) (i : Int) (c : Char) (cs : List Char),
    s.data = c :: cs → c ≠ '<' → pyInt s = some i →
    ((((renderer.length : Int) ≤ i ∨ i < -(renderer.length : Int)) →
        find_glyph s renderer = .error .indexError) ∧
     (-(renderer.length : Int) ≤ i → i < 0 →
        ∃ g, (renderer.map Prod.fst).get? (renderer.length - (-i).toNat) = some g ∧
          find_glyph s renderer = .ok (g, "forward"))) := by
  intro s renderer i c cs hd hc hint
  constructor
  · intro hout
    have herr : pyIndex (renderer.map Prod.fst) i = .error .indexError := by
      rcases hout with h | h
      · exact pyIndex_err_ge _ _ (by simpa using h)
      · exact pyIndex_err_ltneg _ _ (by simpa using h)
    unfold find_glyph
    rw [hd]
    simp only [if_neg hc, hint, herr]
  · intro h1 h2
    obtain ⟨g, hok, hget⟩ :=
      pyIndex_ok_neg (renderer.map Prod.fst) i h2 (by simpa using h1)
    refine ⟨g, by simpa using hget, ?_⟩
    unfold find_glyph
    rw [hd]
    simp only [if_neg hc, hint, hok]

/-- Witness for C4 at concrete inputs: index `-1` on the two-glyph catalog
resolves to its last key, and index `5` fails. -/
theorem c4_find_glyph_bounds_witness :
    (∃ g, (testCatalog.map Prod.fst).get? (testCatalog.length - (-(-1 : Int)).toNat) = some g ∧
       find_glyph "-1" testCatalog = .ok (g, "forward")) ∧
    find_glyph "5" testCatalog = .error .indexError := by
  constructor
  · exact (c4_find_glyph_bounds "-1" testCatalog (-1) '-' ['1'] rfl (by decide) rfl).2
      (by decide) (by decide)
  · exact (c4_find_glyph_bounds "5" testCatalog 5 '5' [] rfl (by decide) rfl).1
      (Or.inl (by decide))

/-- C10 counterexample: in the index field `"2<5"` the `'<'` is not
leading, so it is not deleted: `int("2<5")` raises `ValueError` instead of
resolving to catalog index 25, refuting "a `<` that is not the first
character does not set reverse but is still deleted". -/
theorem c10_cex_nonleading_marker_not_deleted :
    find_glyph "2<5" testCatalog = .error .valueError := rfl

/-- C10 (amended): deletion of `'<'` is global but happens only in the
leading-marker branch. When the index field starts with `'<'`, orientation
is reverse and every `'<'` is deleted before integer parsing (so `"<2<5"`
resolves to catalog index 25 with orientation reverse); when the first
character is not `'<'`, nothing is deleted and a stray `'<'` makes integer
parsing fail with `ValueError`. -/
theorem c10_marker_stripping :
    ∀ (s : String) (renderer : Catalog) (c : Char) (cs : List Char),
    s.data = c :: cs →
    ((c = '<' → ∀ (i : Int) (g : String),
        pyInt (String.mk ((c :: cs).filter (fun x => x ≠ '<'))) = some i →
        pyIndex (renderer.map Prod.fst) i = .ok g →
        find_glyph s renderer = .ok (g, "reverse")) ∧
     (c ≠ '<' → '<' ∈ cs → find_glyph s renderer = .error .valueError)) := by
  intro s renderer c cs hd
  constructor
  · intro hc i g hint hig
    subst hc
    unfold find_glyph
    rw [hd]
    simp only [List.filter] at hint
    simp at hint
    simp [hint, hig]
  · intro hc hmem
    have hnone : pyInt s = none := by
      refine pyInt_none_of_bad s '<' ?_ (by decide) (by decide) (by decide) (by decide)
      rw [hd]
      exact List.mem_cons_of_mem _ hmem
    unfold find_glyph
    rw [hd]
    simp only [if_neg hc, hnone]

/-- Witness for C10 at concrete inputs: `"<2<5"` resolves to the glyph at
index 25 with orientation reverse, `"2<5"` raises `ValueError`. -/
theorem c10_marker_stripping_witness :
    find_glyph "<2<5" bigCatalog = .ok ("g25", "reverse") ∧
    find_glyph "2<5" testCatalog = .error .valueError := by
  constructor
  · exact (c10_marker_stripping "<2<5" bigCatalog '<' ['2', '<', '5'] rfl).1 rfl 25 "g25" rfl rfl
  · exact (c10_marker_stripping "2<5" testCatalog '2' ['<', '5'] rfl).2 (by decide) (by decide)

/-- C7: `find_interaction_type` maps exactly in→inhibition, co→control,
de→degradation, pr→process, st→stimulation; every other input string fails
with the fixed invalid-interaction exception, whose message enumerates
each of the five valid codes. -/
theorem c7_interaction_kind_resolver :
    find_interaction_type "in" = .ok "inhibition" ∧
    find_interaction_type "co" = .ok "control" ∧
    find_interaction_type "de" = .ok "degradation" ∧
    find_interaction_type "pr" = .ok "process" ∧
    find_interaction_type "st" = .ok "stimulation" ∧
    (∀ v : String, v ∉ (["in", "co", "de", "pr", "st"] : List String) →
      find_interaction_type v = .error (.exn interaction_err_msg)) ∧
    strContains interaction_err_msg "\"in\"" = true ∧
    strContains interaction_err_msg "\"co\"" = true ∧
    strContains interaction_err_msg "\"de\"" = true ∧
    strContains interaction_err_msg "\"pr\"" = true ∧
    strContains interaction_err_msg "\"st\"" = true := by
  refine ⟨rfl, rfl, rfl, rfl, rfl, ?_, rfl, rfl, rfl, rfl, rfl⟩
  intro v hv
  simp only [List.mem_cons, List.not_mem_nil, or_false, not_or] at hv
  obtain ⟨n1, n2, n3, n4, n5⟩ := hv
  simp [find_interaction_type, n1, n2, n3, n4, n5]

/-- Witness for C7 at a concrete invalid code. -/
theorem c7_interaction_kind_resolver_witness :
    find_interaction_type "xx" = .error (.exn interaction_err_msg) :=
  c7_interaction_kind_resolver.2.2.2.2.2.1 "xx" (by decide)

/-- C2 counterexample: the four-field segment `"0 1 lab extra"` is parsed
successfully into a Part with no label (the extra fields are silently
ignored) instead of failing with a malformed-input error. -/
theorem c2_cex_four_fields_accepted :
    parse_string "0 1 lab extra" testCatalog =
      .ok [Val.lst [.str "promoter", .str "forward",
                    .tup [.num (51/255), .num (204/255), .num (255/255)], .nil]] := rfl

/-- C2 (amended): splitting a part segment on single spaces, a 1-field
segment always fails (the color field access raises), and segments of 2 or
3 fields behave as claimed, but a segment of 4 or more fields is NOT
rejected: it parses exactly like its first two fields with no label, the
extra fields being ignored. -/
theorem c2_part_field_counts :
    ∀ (partition : String) (renderer : Catalog),
    ((((splitOnCh ' ' partition.data).map String.mk).length = 1 →
       ∀ v, parse_partition partition renderer ≠ .ok v) ∧
     (4 ≤ ((splitOnCh ' ' partition.data).map String.mk).length →
       ∃ a b, ((splitOnCh ' ' partition.data).map String.mk).get? 0 = some a ∧
         ((splitOnCh ' ' partition.data).map String.mk).get? 1 = some b ∧
         parse_partition partition renderer = (do
           let go ← find_glyph a renderer
           let color ← find_color (.str b)
           pure (Val.lst [.str go.1, .str go.2, color, Val.nil])))) := by
  intro partition renderer
  constructor
  · intro hlen v hok
    obtain ⟨v0, hv0⟩ := List.length_eq_one.mp hlen
    unfold parse_partition at hok
    rw [hv0] at hok
    cases hga : find_glyph v0 renderer with
    | error e => simp [pyNth, hga, ok_bind, error_bind] at hok
    | ok go => simp [pyNth, hga, ok_bind, error_bind] at hok
  · intro hlen
    obtain ⟨x0, x1, x2, x3, tl, hv⟩ := four_of_length _ hlen
    refine ⟨x0, x1, by rw [hv]; rfl, by rw [hv]; rfl, ?_⟩
    unfold parse_partition
    rw [hv]
    have h3 : ¬ ((x0 :: x1 :: x2 :: x3 :: tl).length = 3) := by
      simp only [List.length_cons]
      omega
    cases hga : find_glyph x0 renderer with
    | error e => simp [pyNth, hga, ok_bind, error_bind]
    | ok go =>
      cases hcol : find_color (.str x1) with
      | error e => simp [pyNth, hga, hcol, ok_bind, error_bind]
      | ok color => simp [pyNth, hga, hcol, h3, ok_bind, error_bind]

/-- Witness for C2 at concrete inputs: the 1-field segment `"25"` fails to
parse, and the 4-field segment `"0 1 lab extra"` parses like `"0 1"`. -/
theorem c2_part_field_counts_witness :
    (parse_partition "25" testCatalog ≠ .ok Val.nil) ∧
    (∃ a b, ((splitOnCh ' ' "0 1 lab extra".data).map String.mk).get? 0 = some a ∧
       ((splitOnCh ' ' "0 1 lab extra".data).map String.mk).get? 1 = some b ∧
       parse_partition "0 1 lab extra" testCatalog = (do
         let go ← find_glyph a testCatalog
         let color ← find_color (.str b)
         pure (Val.lst [.str go.1, .str go.2, color, Val.nil]))) :=
  ⟨(c2_part_field_counts "25" testCatalog).1 (by decide) Val.nil,
   (c2_part_field_counts "0 1 lab extra" testCatalog).2 (by decide)⟩

/-- C5 counterexample: the in-range negative source index `-1` does not
fail; it wraps around Python-style and produces an interaction whose
source endpoint is the last part, refuting "every negative index causes
the Interaction Parser to fail". -/
theorem c5_cex_negative_endpoint_wraps :
    process_interactions "-1,0,in,5" [.str "A", .str "B"] =
      .ok [Val.lst [.str "B", .str "A", .str "inhibition",
                    .dct [("color", .tup [.num (255/255), .num (102/255), .num (102/255)])]]] := rfl

/-- C5 (amended): for a single-interaction string whose four fields
resolve, an endpoint index outside Python's accepted range `[-len, len)`
makes `process_interactions` fail with an index error before any record is
produced — an index `≥ len` or `< -len` fails as claimed, but a negative
index in `[-len, -1]` is accepted and wraps around to `len + i`. -/
theorem c5_endpoint_bounds :
    ∀ (istr : String) (part_list : List Val) (e0 e1 e2 e3 : String)
      (sIdx eIdx : Int) (ty : String) (col : Val),
    strContains istr "//" = false →
    pyNth ((splitOnCh ',' istr.data).map String.mk) 0 = .ok e0 →
    pyNth ((splitOnCh ',' istr.data).map String.mk) 1 = .ok e1 →
    pyNth ((splitOnCh ',' istr.data).map String.mk) 2 = .ok e2 →
    pyNth ((splitOnCh ',' istr.data).map String.mk) 3 = .ok e3 →
    pyInt e0 = some sIdx → pyInt e1 = some eIdx →
    find_interaction_type e2 = .ok ty → find_color (.str e3) = .ok col →
    (((( part_list.length : Int) ≤ sIdx ∨ sIdx < -(part_list.length : Int)) →
        process_interactions istr part_list = .error .indexError) ∧
     (∀ sp, pyIndex part_list sIdx = .ok sp →
        (((part_list.length : Int) ≤ eIdx ∨ eIdx < -(part_list.length : Int)) →
          process_interactions istr part_list = .error .indexError)) ∧
     (∀ sp ep, pyIndex part_list sIdx = .ok sp → pyIndex part_list eIdx = .ok ep →
        process_interactions istr part_list =
          .ok [Val.lst [sp, ep, .str ty, .dct [("color", col)]]])) := by
  intro istr part_list e0 e1 e2 e3 sIdx eIdx ty col hns h0 h1 h2 h3 hs he hty hcol
  refine ⟨?_, ?_, ?_⟩
  · intro hout
    have herr : pyIndex part_list sIdx = .error .indexError := by
      rcases hout with h | h
      · exact pyIndex_err_ge _ _ h
      · exact pyIndex_err_ltneg _ _ h
    unfold process_interactions process_one
    simp [hns, h0, h1, h2, h3, hs, he, hty, hcol, herr,
          ok_bind, error_bind, Functor.map, Except.map]
  · intro sp hsp hout
    have herr : pyIndex part_list eIdx = .error .indexError := by
      rcases hout with h | h
      · exact pyIndex_err_ge _ _ h
      · exact pyIndex_err_ltneg _ _ h
    unfold process_interactions process_one
    simp [hns, h0, h1, h2, h3, hs, he, hty, hcol, hsp, herr,
          ok_bind, error_bind, Functor.map, Except.map]
  · intro sp ep hsp hep
    unfold process_interactions process_one
    simp [hns, h0, h1, h2, h3, hs, he, hty, hcol, hsp, hep,
          ok_bind, error_bind, Functor.map, Except.map, pure, Except.pure]

/-- Witness for C5 at concrete inputs: on a 2-part list, source index 5
fails, and indices -1 and 0 produce the wrapped-around record. -/
theorem c5_endpoint_bounds_witness :
    (process_interactions "5,0,in,5" [.str "A", .str "B"] = .error .indexError) ∧
    (process_interactions "-1,0,in,5" [.str "A", .str "B"] =
      .ok [Val.lst [.str "B", .str "A", .str "inhibition",
                    .dct [("color", .tup [.num (255/255), .num (102/255), .num (102/255)])]]]) :=
  ⟨(c5_endpoint_bounds "5,0,in,5" [.str "A", .str "B"] "5" "0" "in" "5" 5 0
      "inhibition" (.tup [.num (255/255), .num (102/255), .num (102/255)])
      rfl rfl rfl rfl rfl rfl rfl rfl rfl).1 (Or.inl (by decide)),
   (c5_endpoint_bounds "-1,0,in,5" [.str "A", .str "B"] "-1" "0" "in" "5" (-1) 0
      "inhibition" (.tup [.num (255/255), .num (102/255), .num (102/255)])
      rfl rfl rfl rfl rfl rfl rfl rfl rfl).2.2 (.str "B") (.str "A") rfl rfl⟩

/-- C6: `safe_eval` rejects every expression containing a character
outside the whitelist `0123456789+-*(). /` with the unsafe-eval exception
(so `"2^3"` fails, as the witness shows), the all-allowed expression
`"2*(3+4)"` evaluates to 14, and an empty rotation string bypasses the
evaluator so the pipeline's rotation is 0. -/
theorem c6_safe_eval :
    (∀ (expression : String) (c : Char), c ∈ expression.data →
       allowed_chars.data.contains c = false →
       safe_eval expression =
         .error (.exn ("Unsafe eval - allowed characters: " ++ allowed_chars))) ∧
    safe_eval "2*(3+4)" = .ok 14 ∧
    (∀ (string interaction : String) (renderer : Catalog)
       (pl : List Val) (rot : ℚ) (ints : Option (List Val)),
       render_pipeline string "" interaction renderer = .ok (pl, rot, ints) → rot = 0) := by
  refine ⟨?_, rfl, ?_⟩
  · intro expr c hc hbad
    have hall : expr.data.all (fun x => allowed_chars.data.contains x) = false :=
      List.all_eq_false.mpr ⟨c, hc, by rw [hbad]; exact Bool.false_ne_true⟩
    have hcond : ¬ (expr.data.all (fun x => allowed_chars.data.contains x) = true) := by
      rw [hall]
      exact Bool.false_ne_true
    unfold safe_eval
    rw [if_neg hcond]
  · intro s istr renderer pl rot ints h
    unfold render_pipeline at h
    obtain ⟨parts, hp, h⟩ := except_bind_ok h
    obtain ⟨plist, hf, h⟩ := except_bind_ok h
    rw [if_neg (by simp)] at h
    obtain ⟨r0, hr0, h⟩ := except_bind_ok h
    obtain ⟨iv, hiv, h⟩ := except_bind_ok h
    simp only [pure, Except.pure, Except.ok.injEq, Prod.mk.injEq] at hr0 h
    rw [← h.2.1, ← hr0]

/-- Witness for C6 at concrete inputs: `"2^3"` is rejected by the
character whitelist, and a run of the pipeline with an empty rotation
string yields rotation 0. -/
theorem c6_safe_eval_witness :
    safe_eval "2^3" =
      .error (.exn ("Unsafe eval - allowed characters: " ++ allowed_chars)) ∧
    (0 : ℚ) = 0 :=
  ⟨c6_safe_eval.1 "2^3" '^' (by decide) (by decide),
   c6_safe_eval.2.2 "0 1" "" testCatalog
     [Val.lst [.str "promoter", .dct [("orientation", .str "forward")],
               .dct [("promoter-body",
                      .dct [("edgecolor",
                             .tup [.num (51/255), .num (204/255), .num (255/255)])])]]]
     0 none rfl⟩

/-- C8: every palette code `"1"..."14"` resolves to its preset triple with
each channel divided by 255, all channels lying in `[0, 1]`; every other
string code fails with the key-error of the dict lookup. -/
theorem c8_color_codes :
    (∀ s : String, s ∈ colordict.map Prod.fst →
       ∃ r g b : ℚ, dictGet colordict s = some (r, g, b) ∧
         find_color (.str s) = .ok (.tup [.num (r/255), .num (g/255), .num (b/255)]) ∧
         0 ≤ r/255 ∧ r/255 ≤ 1 ∧ 0 ≤ g/255 ∧ g/255 ≤ 1 ∧ 0 ≤ b/255 ∧ b/255 ≤ 1) ∧
    (∀ s : String, s ∉ colordict.map Prod.fst →
       find_color (.str s) = .error .keyError) := by
  constructor
  · intro s hs
    simp only [colordict, List.map_cons, List.map_nil, List.mem_cons,
               List.not_mem_nil, or_false] at hs
    rcases hs with rfl | rfl | rfl | rfl | rfl | rfl | rfl | rfl | rfl | rfl | rfl | rfl | rfl | rfl <;>
      exact ⟨_, _, _, rfl, rfl, by norm_num, by norm_num, by norm_num, by norm_num,
             by norm_num, by norm_num⟩
  · intro s hs
    have hnone : dictGet colordict s = none := by
      cases hd : dictGet colordict s with
      | none => rfl
      | some v => exact absurd (dictGet_mem _ _ _ hd) hs
    unfold find_color
    simp [pyIsTheTypeTuple, hnone]

/-- Witness for C8 at concrete inputs: code `"1"` resolves, code `"99"`
fails. -/
theorem c8_color_codes_witness :
    (∃ r g b : ℚ, dictGet colordict "1" = some (r, g, b) ∧
       find_color (.str "1") = .ok (.tup [.num (r/255), .num (g/255), .num (b/255)]) ∧
       0 ≤ r/255 ∧ r/255 ≤ 1 ∧ 0 ≤ g/255 ∧ g/255 ≤ 1 ∧ 0 ≤ b/255 ∧ b/255 ≤ 1) ∧
    find_color (.str "99") = .error .keyError :=
  ⟨c8_color_codes.1 "1" (by decide), c8_color_codes.2 "99" (by decide)⟩

/-- C1 counterexample: for construct `"0 1"` and interaction `"0,0,in,1"`,
the record produced by the pipeline stores as both endpoints the element 0
of the *reformatted* (`format_parts`) sequence, which is not equal to
element 0 of the parsed Part sequence — `render_input` passes the
formatted list to `process_interactions` (line 59). -/
theorem c1_cex_endpoint_is_formatted_part :
    parse_string "0 1" testCatalog =
      .ok [Val.lst [.str "promoter", .str "forward",
                    .tup [.num (51/255), .num (204/255), .num (255/255)], .nil]] ∧
    format_parts
      [Val.lst [.str "promoter", .str "forward",
                .tup [.num (51/255), .num (204/255), .num (255/255)], .nil]] testCatalog =
      .ok [Val.lst [.str "promoter", .dct [("orientation", .str "forward")],
                    .dct [("promoter-body",
                           .dct [("edgecolor",
                                  .tup [.num (51/255), .num (204/255), .num (255/255)])])]]] ∧
    render_pipeline "0 1" "" "0,0,in,1" testCatalog =
      .ok ([Val.lst [.str "promoter", .dct [("orientation", .str "forward")],
                     .dct [("promoter-body",
                            .dct [("edgecolor",
                                   .tup [.num (51/255), .num (204/255), .num (255/255)])])]]],
           0,
           some [Val.lst
             [Val.lst [.str "promoter", .dct [("orientation", .str "forward")],
                       .dct [("promoter-body",
                              .dct [("edgecolor",
                                     .tup [.num (51/255), .num (204/255), .num (255/255)])])]],
              Val.lst [.str "promoter", .dct [("orientation", .str "forward")],
                       .dct [("promoter-body",
                              .dct [("edgecolor",
                                     .tup [.num (51/255), .num (204/255), .num (255/255)])])]],
              .str "inhibition",
              .dct [("color", .tup [.num (51/255), .num (204/255), .num (255/255)])]]]) ∧
    Val.lst [.str "promoter", .dct [("orientation", .str "forward")],
             .dct [("promoter-body",
                    .dct [("edgecolor",
                           .tup [.num (51/255), .num (204/255), .num (255/255)])])]] ≠
      Val.lst [.str "promoter", .str "forward",
               .tup [.num (51/255), .num (204/255), .num (255/255)], .nil] := by
  refine ⟨rfl, rfl, rfl, ?_⟩
  intro h
  simp at h

/-- C1 (amended): interaction endpoints are stored by indexing into the
*reformatted* part list, not the parsed one: the pipeline hands
`format_parts`' output to `process_interactions`, and a single-interaction
record stores `part_list[src]` and `part_list[tgt]` of that list. The two
sequences are index-aligned (one FormattedPart per Part, order preserved),
but the stored endpoints are the FormattedParts. -/
theorem c1_interaction_endpoints :
    (∀ (string rotation interaction : String) (renderer : Catalog)
       (pl : List Val) (rot : ℚ) (ints : Option (List Val)),
       render_pipeline string rotation interaction renderer = .ok (pl, rot, ints) →
       ∃ parts, parse_string string renderer = .ok parts ∧
         format_parts parts renderer = .ok pl) ∧
    (∀ (istr : String) (part_list res : List Val),
       strContains istr "//" = false →
       process_interactions istr part_list = .ok res →
       ∃ (e0 e1 : String) (sIdx eIdx : Int) (sp ep : Val) (ty : String) (col : Val),
         pyNth ((splitOnCh ',' istr.data).map String.mk) 0 = .ok e0 ∧
         pyNth ((splitOnCh ',' istr.data).map String.mk) 1 = .ok e1 ∧
         pyInt e0 = some sIdx ∧ pyInt e1 = some eIdx ∧
         pyIndex part_list sIdx = .ok sp ∧
         pyIndex part_list eIdx = .ok ep ∧
         res = [Val.lst [sp, ep, .str ty, .dct [("color", col)]]]) := by
  constructor
  · intro s r i renderer pl rot ints h
    unfold render_pipeline at h
    obtain ⟨parts, hp, h⟩ := except_bind_ok h
    obtain ⟨plist, hf, h⟩ := except_bind_ok h
    obtain ⟨r0, hr0, h⟩ := except_bind_ok h
    obtain ⟨iv, hiv, h⟩ := except_bind_ok h
    simp only [pure, Except.pure, Except.ok.injEq, Prod.mk.injEq] at h
    exact ⟨parts, hp, h.1 ▸ hf⟩
  · intro istr part_list res hns h
    unfold process_interactions at h
    rw [hns] at h
    simp only [Bool.false_eq_true, if_false] at h
    cases hpo : process_one istr part_list with
    | error e =>
      rw [hpo] at h
      simp [Functor.map, Except.map] at h
    | ok v =>
      rw [hpo] at h
      simp only [Functor.map, Except.map, Except.ok.injEq] at h
      unfold process_one at hpo
      obtain ⟨e0, h0, hpo⟩ := except_bind_ok hpo
      obtain ⟨s0, hs0, hpo⟩ := except_bind_ok hpo
      have hint0 : pyInt e0 = some s0 := by
        cases hpi : pyInt e0 with
        | none => rw [hpi] at hs0; exact Except.noConfusion hs0
        | some j =>
          rw [hpi] at hs0
          obtain rfl : j = s0 := by simpa using hs0
          rfl
      obtain ⟨e1, h1, hpo⟩ := except_bind_ok hpo
      obtain ⟨s1, hs1, hpo⟩ := except_bind_ok hpo
      have hint1 : pyInt e1 = some s1 := by
        cases hpi : pyInt e1 with
        | none => rw [hpi] at hs1; exact Except.noConfusion hs1
        | some j =>
          rw [hpi] at hs1
          obtain rfl : j = s1 := by simpa using hs1
          rfl
      obtain ⟨e2, h2, hpo⟩ := except_bind_ok hpo
      obtain ⟨ty, hty, hpo⟩ := except_bind_ok hpo
      obtain ⟨e3, h3, hpo⟩ := except_bind_ok hpo
      obtain ⟨col, hcol, hpo⟩ := except_bind_ok hpo
      obtain ⟨sp, hsp, hpo⟩ := except_bind_ok hpo
      obtain ⟨ep, hep, hpo⟩ := except_bind_ok hpo
      simp only [pure, Except.pure, Except.ok.injEq] at hpo
      exact ⟨e0, e1, s0, s1, sp, ep, ty, col, h0, h1, hint0, hint1, hsp, hep,
             by rw [← h, ← hpo]⟩

/-- Witness for C1 at concrete inputs: the pipeline run for `"0 1"` with
interaction `"0,0,in,1"`, and the single-interaction record shape. -/
theorem c1_interaction_endpoints_witness :
    (∃ parts, parse_string "0 1" testCatalog = .ok parts ∧
       format_parts parts testCatalog =
         .ok [Val.lst [.str "promoter", .dct [("orientation", .str "forward")],
                       .dct [("promoter-body",
                              .dct [("edgecolor",
                                     .tup [.num (51/255), .num (204/255),
                                           .num (255/255)])])]]]) ∧
    (∃ (e0 e1 : String) (sIdx eIdx : Int) (sp ep : Val) (ty : String) (col : Val),
       pyNth ((splitOnCh ',' "0,0,in,1".data).map String.mk) 0 = .ok e0 ∧
       pyNth ((splitOnCh ',' "0,0,in,1".data).map String.mk) 1 = .ok e1 ∧
       pyInt e0 = some sIdx ∧ pyInt e1 = some eIdx ∧
       pyIndex [Val.str "A"] sIdx = .ok sp ∧
       pyIndex [Val.str "A"] eIdx = .ok ep ∧
       [Val.lst [Val.str "A", Val.str "A", .str "inhibition",
                 .dct [("color", .tup [.num (51/255), .num (204/255), .num (255/255)])]]] =
         [Val.lst [sp, ep, .str ty, .dct [("color", col)]]]) :=
  ⟨c1_interaction_endpoints.1 "0 1" "" "0,0,in,1" testCatalog
     [Val.lst [.str "promoter", .dct [("orientation", .str "forward")],
               .dct [("promoter-body",
                      .dct [("edgecolor",
                             .tup [.num (51/255), .num (204/255), .num (255/255)])])]]]
     0
     (some [Val.lst
       [Val.lst [.str "promoter", .dct [("orientation", .str "forward")],
                 .dct [("promoter-body",
                        .dct [("edgecolor",
                               .tup [.num (51/255), .num (204/255), .num (255/255)])])]],
        Val.lst [.str "promoter", .dct [("orientation", .str "forward")],
                 .dct [("promoter-body",
                        .dct [("edgecolor",
                               .tup [.num (51/255), .num (204/255), .num (255/255)])])]],
        .str "inhibition",
        .dct [("color", .tup [.num (51/255), .num (204/255), .num (255/255)])]]])
     rfl,
   c1_interaction_endpoints.2 "0,0,in,1" [Val.str "A"]
     [Val.lst [Val.str "A", Val.str "A", .str "inhibition",
               .dct [("color", .tup [.num (51/255), .num (204/255), .num (255/255)])]]]
     rfl rfl⟩

/-- C9: the Formatter's style-override map contains exactly the glyph
sub-paths whose class is neither `baseline` nor `bounding-box` and whose
id does not contain `background` (first conjunct: key present iff such a
sub-path exists, and every stored entry is the edge-recoloring of such a
sub-path); within a recoloring, exactly the style properties whose name
contains `edge` are set to the color and nothing else is overridden
(second conjunct); and the options map has a `label_parameters.text`
entry iff the part has a label, otherwise only `orientation` (third
conjunct). -/
theorem c9_formatter_style_and_options :
    (∀ (renderer : Catalog) (g : String) (gi : GlyphInfo) (color : Val),
       dictGet renderer g = some gi →
       ∃ sd, set_style_color (.str g) color renderer = .ok sd ∧
         (∀ k, (dictGet sd k).isSome = true ↔
            ∃ p ∈ gi.paths, recolorable p = true ∧ p.id = k) ∧
         (∀ k v, dictGet sd k = some v →
            ∃ p ∈ gi.paths, recolorable p = true ∧ p.id = k ∧
              v = .dct (color_style_of p.style color))) ∧
    (∀ (style : List (String × Val)) (color : Val) (key : String),
       dictGet (color_style_of style color) key =
         (if key ∈ (style.filter (fun kv => strContains kv.1 "edge")).map Prod.fst
          then some color else none)) ∧
    (∀ (g o c l : Val) (renderer : Catalog) (fp : Val),
       format_part (Val.lst [g, o, c, l]) renderer = .ok fp →
       ∃ sd, (l = .nil → fp = Val.lst [g, .dct [("orientation", o)], .dct sd]) ∧
             (l ≠ .nil →
               fp = Val.lst [g, .dct [("orientation", o),
                                      ("label_parameters", .dct [("text", l)])],
                             .dct sd])) := by
  refine ⟨?_, ?_, ?_⟩
  · intro renderer g gi color hg
    refine ⟨gi.paths.foldl (styleStep color) [], ?_, ?_, ?_⟩
    · simp only [set_style_color]
      rw [hg]
    · intro k
      constructor
      · intro hk
        cases hv : dictGet (gi.paths.foldl (styleStep color) []) k with
        | none => rw [hv] at hk; simp at hk
        | some v =>
          rcases styleFold_some color gi.paths [] k v hv with ⟨p, hp, hrec, hid, _⟩ | hnone
          · exact ⟨p, hp, hrec, hid⟩
          · simp [dictGet] at hnone
      · intro hex
        exact styleFold_isSome color gi.paths [] k (Or.inl hex)
    · intro k v hv
      rcases styleFold_some color gi.paths [] k v hv with hfound | hnone
      · exact hfound
      · simp [dictGet] at hnone
  · intro style color key
    unfold color_style_of
    rw [edgeFold_get]
    simp [dictGet]
  · intro g o c l renderer fp h
    unfold format_part at h
    rw [show pyGet (Val.lst [g, o, c, l]) (0 : Int) = Except.ok g from rfl, ok_bind] at h
    rw [show pyGet (Val.lst [g, o, c, l]) (1 : Int) = Except.ok o from rfl, ok_bind] at h
    rw [show pyGet (Val.lst [g, o, c, l]) (2 : Int) = Except.ok c from rfl, ok_bind] at h
    rw [show pyGet (Val.lst [g, o, c, l]) (3 : Int) = Except.ok l from rfl, ok_bind] at h
    obtain ⟨sd, hsd, h⟩ := except_bind_ok h
    refine ⟨sd, ?_, ?_⟩
    · intro hl
      subst hl
      simp only [pure, Except.pure, Except.ok.injEq] at h
      exact h.symm
    · intro hl
      cases l with
      | nil => exact absurd rfl hl
      | str s =>
        simp only [pure, Except.pure, Except.ok.injEq] at h
        exact h.symm
      | num q =>
        simp only [pure, Except.pure, Except.ok.injEq] at h
        exact h.symm
      | tup xs =>
        simp only [pure, Except.pure, Except.ok.injEq] at h
        exact h.symm
      | lst xs =>
        simp only [pure, Except.pure, Except.ok.injEq] at h
        exact h.symm
      | dct xs =>
        simp only [pure, Except.pure, Except.ok.injEq] at h
        exact h.symm

/-- Witness for C9 at concrete inputs: the promoter glyph of the test
catalog and a concrete labelled and unlabelled part. -/
theorem c9_formatter_style_and_options_witness :
    (∃ sd, set_style_color (.str "promoter") (Val.num 1) testCatalog = .ok sd ∧
       (∀ k, (dictGet sd k).isSome = true ↔
          ∃ p ∈ (GlyphInfo.mk [⟨"unspecified", "promoter-body", bodyStyle⟩,
                               ⟨"unspecified", "promoter-background", bodyStyle⟩,
                               ⟨"bounding-box", "promoter-bbox", bodyStyle⟩,
                               ⟨"baseline", "promoter-base", bodyStyle⟩]).paths,
            recolorable p = true ∧ p.id = k) ∧
       (∀ k v, dictGet sd k = some v →
          ∃ p ∈ (GlyphInfo.mk [⟨"unspecified", "promoter-body", bodyStyle⟩,
                               ⟨"unspecified", "promoter-background", bodyStyle⟩,
                               ⟨"bounding-box", "promoter-bbox", bodyStyle⟩,
                               ⟨"baseline", "promoter-base", bodyStyle⟩]).paths,
            recolorable p = true ∧ p.id = k ∧
              v = .dct (color_style_of p.style (Val.num 1)))) ∧
    (∃ sd, ((Val.str "lab") = Val.nil →
              Val.lst [.str "promoter",
                       .dct [("orientation", .str "forward"),
                             ("label_parameters", .dct [("text", .str "lab")])],
                       .dct [("promoter-body", .dct [("edgecolor", Val.num 1)])]] =
                Val.lst [.str "promoter", .dct [("orientation", .str "forward")], .dct sd]) ∧
           ((Val.str "lab") ≠ Val.nil →
              Val.lst [.str "promoter",
                       .dct [("orientation", .str "forward"),
                             ("label_parameters", .dct [("text", .str "lab")])],
                       .dct [("promoter-body", .dct [("edgecolor", Val.num 1)])]] =
                Val.lst [.str "promoter",
                         .dct [("orientation", .str "forward"),
                               ("label_parameters", .dct [("text", .str "lab")])],
                         .dct sd])) :=
  ⟨c9_formatter_style_and_options.1 testCatalog "promoter"
     (GlyphInfo.mk [⟨"unspecified", "promoter-body", bodyStyle⟩,
                    ⟨"unspecified", "promoter-background", bodyStyle⟩,
                    ⟨"bounding-box", "promoter-bbox", bodyStyle⟩,
                    ⟨"baseline", "promoter-base", bodyStyle⟩]) (Val.num 1) rfl,
   c9_formatter_style_and_options.2.2 (.str "promoter") (.str "forward") (Val.num 1)
     (.str "lab") testCatalog
     (Val.lst [.str "promoter",
               .dct [("orientation", .str "forward"),
                     ("label_parameters", .dct [("text", .str "lab")])],
               .dct [("promoter-body", .dct [("edgecolor", Val.num 1)])]]) rfl⟩

end claims
